import Mathlib

/-!
Verification of the color-conversion and data-loading module of the
OnePageUnsplash repository.

Strings are modelled as `List Char`.  JavaScript numbers are modelled as
rationals (`ℚ`): every numeric literal appearing in the source (`1.0472`,
`6.2832`, `0.299`, …) is an exact decimal.  The color-space pipeline is
modelled in exact rational arithmetic; the luma threshold comparison of
`invertColor`, whose outcome is sensitive to IEEE-754 rounding at a boundary
input, is modelled in faithfully rounded binary64 (`fl64`).  Values produced by
`parseInt`, which may be the JavaScript `NaN`, are modelled as `Option ℤ`
(`none` = `NaN`).  A function that can `throw` returns `Except (List Char) _`,
the error payload being the thrown message.
-/

instance {ε α : Type} [DecidableEq ε] [DecidableEq α] : DecidableEq (Except ε α) := fun a b =>
  match a, b with
  | .error e, .error e' => decidable_of_iff (e = e') (by simp)
  | .ok v, .ok v' => decidable_of_iff (v = v') (by simp)
  | .error _, .ok _ => .isFalse (by simp)
  | .ok _, .error _ => .isFalse (by simp)

/-- Code points treated as white space by JavaScript `parseInt`
(ECMAScript `StrWhiteSpaceChar`: tab, LF, VT, FF, CR, space, NBSP,
Ogham space mark, the en-quad…hair-space block, LS, PS, NNBSP, MMSP,
ideographic space and the BOM). -/
def isJsSpace (c : Char) : Bool :=
  let n := c.toNat
  decide (n = 9) || decide (n = 10) || decide (n = 11) || decide (n = 12) ||
  decide (n = 13) || decide (n = 32) || decide (n = 160) || decide (n = 5760) ||
  (decide (8192 ≤ n) && decide (n ≤ 8202)) || decide (n = 8232) ||
  decide (n = 8233) || decide (n = 8239) || decide (n = 8287) ||
  decide (n = 12288) || decide (n = 65279)

/-- The numeric value of a hexadecimal digit character (`0`-`9`, `a`-`f`,
`A`-`F`), or `none` for any other character. -/
def hexDigitValue (c : Char) : Option ℕ :=
  let n := c.toNat
  if 48 ≤ n ∧ n ≤ 57 then some (n - 48)
  else if 97 ≤ n ∧ n ≤ 102 then some (n - 87)
  else if 65 ≤ n ∧ n ≤ 70 then some (n - 55)
  else none

/-- Whether a character is a hexadecimal digit. -/
def isHexDigitB (c : Char) : Bool :=
  (hexDigitValue c).isSome

/-- The value of a hexadecimal digit, with junk value `0` on non-digits. -/
def hexVal (c : Char) : ℕ :=
  (hexDigitValue c).getD 0

/-- Sign handling of JavaScript `parseInt`: an optional single leading
`-` (code 45) or `+` (code 43). -/
def parseIntSign (cs : List Char) : ℤ × List Char :=
  match cs with
  | [] => (1, [])
  | c :: rest =>
    if c.toNat = 45 then (-1, rest)
    else if c.toNat = 43 then (1, rest)
    else (1, c :: rest)

/-- With radix 16, JavaScript `parseInt` strips a leading `0x` / `0X`. -/
def stripHexPrefix (cs : List Char) : List Char :=
  match cs with
  | c0 :: c1 :: rest =>
    if c0.toNat = 48 ∧ (c1.toNat = 120 ∨ c1.toNat = 88) then rest
    else c0 :: c1 :: rest
  | other => other

/-- Base-16 value of a list of hexadecimal digit characters. -/
def hexDigitsVal (ds : List Char) : ℤ :=
  ds.foldl (fun a c => 16 * a + (hexVal c : ℤ)) 0

/-- JavaScript `parseInt(s, 16)`: skip leading white space, read an optional
sign, strip an optional `0x`/`0X` prefix, then read the longest prefix of
hexadecimal digits; the result is `NaN` (`none`) when that prefix is empty. -/
def parseInt16 (cs : List Char) : Option ℤ :=
  let cs := cs.dropWhile isJsSpace
  let sc := parseIntSign cs
  let cs := stripHexPrefix sc.2
  let ds := cs.takeWhile isHexDigitB
  if ds.isEmpty then none else some (sc.1 * hexDigitsVal ds)

/-- One fuelled step of converting a natural number to digits in base `b`,
most significant digit first (the recursion of `Number.prototype.toString`). -/
def jsDigitsAux (b : ℕ) : ℕ → ℕ → List Char → List Char
  | 0, _, acc => acc
  | fuel + 1, n, acc =>
    if n < b then Nat.digitChar n :: acc
    else jsDigitsAux b fuel (n / b) (Nat.digitChar (n % b) :: acc)

/-- Fuel-free reference version of `jsDigitsAux`, used in proofs. -/
def jsDigitsRec (b n : ℕ) (acc : List Char) : List Char :=
  if _h : b ≤ 1 ∨ n < b then Nat.digitChar n :: acc
  else jsDigitsRec b (n / b) (Nat.digitChar (n % b) :: acc)
termination_by n
decreasing_by
  exact Nat.div_lt_self (by omega) (by omega)

/-- JavaScript `n.toString(16)` for a non-negative integer `n`:
lowercase hexadecimal digits, most significant first. -/
def toString16 (n : ℕ) : List Char :=
  jsDigitsAux 16 (n + 1) n []

/-- JavaScript `${n}` (decimal rendering) for a non-negative integer `n`. -/
def toDecimal (n : ℕ) : List Char :=
  jsDigitsAux 10 (n + 1) n []

/-- JavaScript `hex.replace("#", "")`: remove the first occurrence of `#`
(code point 35) anywhere in the string. -/
def removeFirst (cs : List Char) : List Char :=
  match cs with
  | [] => []
  | c :: rest => if c.toNat = 35 then rest else c :: removeFirst rest

/-- JavaScript `s.slice(a, b)` on a string (`0 ≤ a ≤ b`). -/
def jsSlice (cs : List Char) (a b : ℕ) : List Char :=
  (cs.drop a).take (b - a)

/-- `hexToRgb` (src/unnamed/part_000 lines 92-108): remove the first `#`,
switch on the length — a 3-character string is expanded by duplicating each
character and falls through to the 6-character branch, which parses the three
2-digit slices with `parseInt(-, 16)`; any other length throws. -/
def hexToRgb (hex : List Char) : Except (List Char) (Option ℤ × Option ℤ × Option ℤ) :=
  let hex := removeFirst hex
  if hex.length = 3 then
    let hex := (hex.map (fun c => [c, c])).flatten
    .ok (parseInt16 (jsSlice hex 0 2), parseInt16 (jsSlice hex 2 4), parseInt16 (jsSlice hex 4 6))
  else if hex.length = 6 then
    .ok (parseInt16 (jsSlice hex 0 2), parseInt16 (jsSlice hex 2 4), parseInt16 (jsSlice hex 4 6))
  else
    .error ("Invalid HEX color format. Expected 3 or 6 characters").toList

/-- `rgbToHex` (lines 230-234): `rgb = b | (g << 8) | (r << 16)`, then
`"#" + (0x1000000 | rgb).toString(16).substring(1)`.  The channels produced
by the callers are non-negative machine integers, so JavaScript's 32-bit
bitwise operators agree with the operators on `ℕ` used here. -/
def rgbToHex (r g b : ℕ) : List Char :=
  let rgb := b ||| (g <<< 8) ||| (r <<< 16)
  '#' :: (toString16 (0x1000000 ||| rgb)).drop 1

/-- `padZero` (lines 257-259): prepend `"0"` to a 1-character string. -/
def padZero (str : List Char) : List Char :=
  if str.length = 1 then '0' :: str else str

/-- JavaScript `255 - r` where `r` may be `NaN`. -/
def jsSub255 (r : Option ℤ) : Option ℤ :=
  r.map (fun n => 255 - n)

/-- JavaScript `n.toString(16)` on a value that may be `NaN` or negative. -/
def jsIntToString16 (x : Option ℤ) : List Char :=
  match x with
  | none => ['N', 'a', 'N']
  | some n => if n < 0 then '-' :: toString16 (-n).toNat else toString16 n.toNat

/-- Round a rational to the nearest integer, ties to even — the rounding
step of IEEE-754 round-to-nearest. -/
def rne2 (y : ℚ) : ℤ :=
  if y - ⌊y⌋ < 1 / 2 then ⌊y⌋
  else if 1 / 2 < y - ⌊y⌋ then ⌊y⌋ + 1
  else if 2 ∣ ⌊y⌋ then ⌊y⌋ else ⌊y⌋ + 1

/-- The IEEE-754 binary64 (double) value nearest to a rational: 53
significant bits, round to nearest, ties to even.  Overflow and subnormals,
which cannot arise in the luma computation, are not modelled. -/
def fl64 (x : ℚ) : ℚ :=
  if x = 0 then 0
  else
    let e : ℤ := Int.log 2 |x|
    (if x < 0 then -1 else 1) * (rne2 (|x| * (2:ℚ) ^ (52 - e)) : ℚ) * (2:ℚ) ^ (e - 52)

/-- The luma expression `r * 0.299 + g * 0.587 + b * 0.114` of `invertColor`
(line 297) evaluated the way JavaScript does, in binary64: each literal
constant is the nearest double, and each product and each (left-associated)
sum is rounded to the nearest double. -/
def flLuma (r g b : ℤ) : ℚ :=
  fl64 (fl64 (fl64 ((r : ℚ) * fl64 0.299) + fl64 ((g : ℚ) * fl64 0.587)) + fl64 ((b : ℚ) * fl64 0.114))

/-- The condition `r * 0.299 + g * 0.587 + b * 0.114 > 186` of `invertColor`
(line 297), with the left side computed in binary64 as the program does
(at the channels `(170, 226, 22)` the binary64 value differs from the exact
rational luma on which side of 186 it falls); any `NaN` channel makes the
comparison false. -/
def lumaGt186 (r g b : Option ℤ) : Bool :=
  match r, g, b with
  | some r, some g, some b => decide (flLuma r g b > 186)
  | _, _, _ => false

/-- The part of `invertColor` after the leading-`#` strip (lines 277-308):
expand a 3-character string by duplicating each of its first three characters,
throw unless the length is now 6, parse the three channels, then either pick
black/white by the luma threshold (`bw` true) or emit `#` plus the zero-padded
hexadecimal rendering of `255 - channel` for each channel. -/
def invertColorCore (hex : List Char) (bw : Bool) : Except (List Char) (List Char) :=
  let hex := if hex.length = 3 then
      [hex.getD 0 ' ', hex.getD 0 ' ', hex.getD 1 ' ', hex.getD 1 ' ', hex.getD 2 ' ', hex.getD 2 ' ']
    else hex
  if hex.length = 6 then
    let r := parseInt16 (jsSlice hex 0 2)
    let g := parseInt16 (jsSlice hex 2 4)
    let b := parseInt16 (jsSlice hex 4 6)
    if bw then
      .ok (if lumaGt186 r g b then ("#000000").toList else ("#FFFFFF").toList)
    else
      .ok ('#' :: (padZero (jsIntToString16 (jsSub255 r)) ++
                   padZero (jsIntToString16 (jsSub255 g)) ++
                   padZero (jsIntToString16 (jsSub255 b))))
  else
    .error ("Invalid HEX color").toList

/-- `invertColor` (lines 270-309): strip a leading `#` (`indexOf('#') === 0`),
then `invertColorCore`. -/
def invertColor (hex : List Char) (bw : Bool) : Except (List Char) (List Char) :=
  invertColorCore
    (match hex with
      | c :: rest => if c.toNat = 35 then rest else c :: rest
      | [] => []) bw

/-- Truncation toward zero, the rounding JavaScript's `%` operator uses. -/
def jsTrunc (q : ℚ) : ℤ :=
  if 0 ≤ q then ⌊q⌋ else ⌈q⌉

/-- JavaScript's remainder operator `a % b` on numbers. -/
def jsMod (a b : ℚ) : ℚ :=
  a - b * (jsTrunc (a / b) : ℚ)

/-- JavaScript `Math.round`: round half-up, i.e. `⌊x + 1/2⌋`. -/
def jsRound (x : ℚ) : ℤ :=
  ⌊x + 1 / 2⌋

/-- `rgbToHsl` (lines 123-170).  Channels are normalized by 255; lightness is
the mean of the extremes; an achromatic color returns `(0, 0, l)`; otherwise
the hue is computed by the `switch` on which normalized channel equals the
maximum (first match wins, as in JavaScript's strict-equality `switch`), then
divided by `6.2832 * 360 + 0`, and the saturation by the lightness split. -/
def rgbToHsl (r g b : ℚ) : ℚ × ℚ × ℚ :=
  let RED := r / 255
  let GREEN := g / 255
  let BLUE := b / 255
  let MAX := max RED (max GREEN BLUE)
  let MIN := min RED (min GREEN BLUE)
  let DELTA := MAX - MIN
  let l := (MAX + MIN) / 2
  if DELTA = 0 then (0, 0, l)
  else
    let h :=
      if MAX = RED then 1.0472 * (GREEN - BLUE) / DELTA + (if GREEN < BLUE then 6.2832 else 0)
      else if MAX = GREEN then 1.0472 * (BLUE - RED) / DELTA + 2.0944
      else if MAX = BLUE then 1.0472 * (RED - GREEN) / DELTA + 4.1888
      else 0
    let h := h / (6.2832 * 360 + 0)
    let s := if l > 0.5 then DELTA / (2 - MAX - MIN) else DELTA / (MAX + MIN)
    (h, s, l)

/-- `hueToRgb` (lines 192-200): wrap `t` into `[0, 1]`, then the four-branch
piecewise interpolation between `p` and `q`. -/
def hueToRgb (p q t : ℚ) : ℚ :=
  let t := if t < 0 then t + 1 else t
  let t := if t > 1 then t - 1 else t
  if t < 1 / 6 then p + (q - p) * 6 * t
  else if t < 1 / 2 then q
  else if t < 2 / 3 then p + (q - p) * (2 / 3 - t) * 6
  else p

/-- `hslToRgb` (lines 182-220): gray when `s = 0`, otherwise the `p`/`q`
bounds and one `hueToRgb` per channel, each scaled by 255 and rounded. -/
def hslToRgb (h s l : ℚ) : ℤ × ℤ × ℤ :=
  if s = 0 then
    let gray := jsRound (l * 255)
    (gray, gray, gray)
  else
    let q := if l < 0.5 then l * (1 + s) else l + s - l * s
    let p := 2 * l - q
    (jsRound (hueToRgb p q (h + 1 / 3) * 255),
     jsRound (hueToRgb p q h * 255),
     jsRound (hueToRgb p q (h - 1 / 3) * 255))

/-- `hexToComplimentary` (lines 82-246): `hexToRgb`, `rgbToHsl`, the hue shift
`h = (h * 360 + 180) % 360 / 360`, `hslToRgb`, `rgbToHex`.  The channels that
`hslToRgb` produces are non-negative, so the `Int.toNat` coercions below are
lossless.  A `NaN` channel out of `parseInt` (impossible for the valid hex
inputs every claim about this function ranges over) is not modelled and
reported as an error. -/
def hexToComplimentary (hex : List Char) : Except (List Char) (List Char) :=
  match hexToRgb hex with
  | .error e => .error e
  | .ok (some r, some g, some b) =>
    let hsl := rgbToHsl (r : ℚ) (g : ℚ) (b : ℚ)
    let h := jsMod (hsl.1 * 360 + 180) 360 / 360
    let rgb := hslToRgb h hsl.2.1 hsl.2.2
    .ok (rgbToHex rgb.1.toNat rgb.2.1.toNat rgb.2.2.toNat)
  | .ok _ => .error ("NaN channels are outside the model").toList

/-- A JavaScript `Error` value, identified by its message. -/
structure JsError where
  message : List Char
deriving DecidableEq

/-- The options object taken by `loadData` (lines 321-345): the `url` is
`none` when absent, and the two optional callbacks are recorded by their
presence (their bodies belong to the caller). -/
structure LoadOptions where
  url : Option (List Char)
  hasOnSuccess : Bool
  hasOnError : Bool

/-- Evidence that a network GET was issued, carrying the requested URL. -/
structure FetchRequest where
  url : List Char
deriving DecidableEq

/-- Whether `options.url` is falsy in JavaScript: absent or empty. -/
def urlFalsy (url : Option (List Char)) : Bool :=
  match url with
  | none => true
  | some s => s.isEmpty

/-- The synchronous phase of `loadData` (lines 321-326): throw
`"URL is required"` when the URL is falsy, otherwise issue the single GET.
An `error` result means the function threw before any network activity;
an `ok` result carries the request that `fetch` was handed. -/
def loadData (options : LoadOptions) : Except JsError FetchRequest :=
  if urlFalsy options.url then .error ⟨("URL is required").toList⟩
  else .ok ⟨options.url.getD []⟩

/-- `response.ok` of the Fetch API: status in the inclusive range 200-299. -/
def responseOk (status : ℕ) : Bool :=
  decide (200 ≤ status) && decide (status ≤ 299)

/-- The outcome of the network GET as seen by the promise chain: either an
HTTP response (status plus the result of parsing its body as JSON) or a
transport-level failure. -/
inductive FetchOutcome (D : Type) where
  | response (status : ℕ) (body : Except JsError D)
  | networkFailure (e : JsError)

/-- What the promise chain of `loadData` does, observably: invoke the success
callback, invoke the error callback, log via `console.error`, or nothing. -/
inductive CallbackEvent (D : Type) where
  | success (data : D)
  | errorCallback (e : JsError)
  | consoleError (e : JsError)
  | noEvent
deriving DecidableEq

/-- The `.catch` clause of `loadData` (lines 338-344): the error callback when
one was supplied, otherwise `console.error`. -/
def dispatchError {D : Type} (options : LoadOptions) (e : JsError) : CallbackEvent D :=
  if options.hasOnError then .errorCallback e else .consoleError e

/-- The message of the error thrown on a non-2xx response (line 329). -/
def httpErrorMessage (status : ℕ) : List Char :=
  ("HTTP error! status: ").toList ++ toDecimal status

/-- The asynchronous phase of `loadData` (lines 326-345): the two `.then`
steps and the `.catch`.  A non-ok status throws inside the chain, a body
parse failure rejects, and both land in `dispatchError`; a parsed body goes
to the success callback when one was supplied. -/
def handleFetch {D : Type} (options : LoadOptions) (outcome : FetchOutcome D) :
    CallbackEvent D :=
  match outcome with
  | .networkFailure e => dispatchError options e
  | .response status body =>
    if responseOk status = false then dispatchError options ⟨httpErrorMessage status⟩
    else
      match body with
      | .error e => dispatchError options e
      | .ok data => if options.hasOnSuccess then .success data else .noEvent

/-- ASCII lowercasing of a character, for stating case-insensitive equality. -/
def toLowerChar (c : Char) : Char :=
  if 65 ≤ c.toNat ∧ c.toNat ≤ 90 then Char.ofNat (c.toNat + 32) else c

/-- Whether a character is a lowercase hexadecimal digit (`0`-`9`, `a`-`f`). -/
def isLowerHexB (c : Char) : Bool :=
  let n := c.toNat
  (decide (48 ≤ n) && decide (n ≤ 57)) || (decide (97 ≤ n) && decide (n ≤ 102))

/-- The value of a two-hex-digit channel, as an integer. -/
def pairVal (c d : Char) : ℤ :=
  16 * (hexVal c : ℤ) + (hexVal d : ℤ)

/-- The black-or-white choice the specification ascribes to
`invertColor(hex, true)`, with the luma read as exact real arithmetic:
black exactly when `r * 0.299 + g * 0.587 + b * 0.114` exceeds 186.
This follows the spec's words; the program evaluates the luma in binary64,
which disagrees with this rule at the channels `(170, 226, 22)`. -/
def lumaRule (r g b : ℤ) : List Char :=
  if (r : ℚ) * 0.299 + (g : ℚ) * 0.587 + (b : ℚ) * 0.114 > 186 then ("#000000").toList
  else ("#FFFFFF").toList

/-- The black-or-white choice `invertColor(hex, true)` actually computes:
black exactly when the binary64-evaluated luma exceeds 186. -/
def lumaRule64 (r g b : ℤ) : List Char :=
  if flLuma r g b > 186 then ("#000000").toList else ("#FFFFFF").toList

lemma hex_range (c : Char) (h : isHexDigitB c = true) :
    (48 ≤ c.toNat ∧ c.toNat ≤ 57) ∨ (97 ≤ c.toNat ∧ c.toNat ≤ 102) ∨
    (65 ≤ c.toNat ∧ c.toNat ≤ 70) := by
  simp only [isHexDigitB, hexDigitValue] at h
  split_ifs at h with h1 h2 h3
  · exact Or.inl h1
  · exact Or.inr (Or.inl h2)
  · exact Or.inr (Or.inr h3)
  · simp at h

lemma lowerHex_isHexDigitB (c : Char) (h : isLowerHexB c = true) : isHexDigitB c = true := by
  simp only [isLowerHexB, Bool.or_eq_true, Bool.and_eq_true, decide_eq_true_eq] at h
  simp only [isHexDigitB, hexDigitValue]
  split_ifs with h1 h2 h3 <;> simp <;> omega

lemma hexVal_eq_of_range1 (c : Char) (h : 48 ≤ c.toNat ∧ c.toNat ≤ 57) :
    hexVal c = c.toNat - 48 := by
  simp only [hexVal, hexDigitValue]
  rw [if_pos h]
  rfl

lemma hexVal_eq_of_range2 (c : Char) (h : 97 ≤ c.toNat ∧ c.toNat ≤ 102) :
    hexVal c = c.toNat - 87 := by
  simp only [hexVal, hexDigitValue]
  rw [if_neg (by omega), if_pos h]
  rfl

lemma hexVal_eq_of_range3 (c : Char) (h : 65 ≤ c.toNat ∧ c.toNat ≤ 70) :
    hexVal c = c.toNat - 55 := by
  simp only [hexVal, hexDigitValue]
  rw [if_neg (by omega), if_neg (by omega), if_pos h]
  rfl

lemma hexVal_lt (c : Char) (h : isHexDigitB c = true) : hexVal c < 16 := by
  rcases hex_range c h with h1 | h1 | h1
  · rw [hexVal_eq_of_range1 c h1]; omega
  · rw [hexVal_eq_of_range2 c h1]; omega
  · rw [hexVal_eq_of_range3 c h1]; omega

lemma isJsSpace_false_of_hex (c : Char) (h : isHexDigitB c = true) :
    isJsSpace c = false := by
  rcases hex_range c h with h1 | h1 | h1 <;>
  · simp only [isJsSpace, Bool.or_eq_false_iff, Bool.and_eq_false_iff,
      decide_eq_false_iff_not]
    omega

lemma parseInt16_pair (c d : Char) (hc : isHexDigitB c = true) (hd : isHexDigitB d = true) :
    parseInt16 [c, d] = some (16 * (hexVal c : ℤ) + (hexVal d : ℤ)) := by
  have hc45 : ¬(c.toNat = 45) := by rcases hex_range c hc with h|h|h <;> omega
  have hc43 : ¬(c.toNat = 43) := by rcases hex_range c hc with h|h|h <;> omega
  have hd120 : ¬(d.toNat = 120) := by rcases hex_range d hd with h|h|h <;> omega
  have hd88 : ¬(d.toNat = 88) := by rcases hex_range d hd with h|h|h <;> omega
  simp only [parseInt16, List.dropWhile, isJsSpace_false_of_hex c hc,
    parseIntSign, stripHexPrefix, hc45, hc43, hd120, hd88, List.takeWhile,
    hexDigitsVal, List.foldl, List.isEmpty, hc, hd, if_false, if_true,
    Bool.false_eq_true, false_and, and_false, false_or, or_self, or_false,
    ite_false, ite_true]
  congr 1
  push_cast
  ring

lemma removeFirst_hash (ds : List Char) : removeFirst ('#' :: ds) = ds := rfl

lemma removeFirst_no_hash (cs : List Char) (h : ∀ c ∈ cs, c.toNat ≠ 35) :
    removeFirst cs = cs := by
  induction cs with
  | nil => rfl
  | cons c rest ih =>
    simp only [removeFirst]
    rw [if_neg (h c (by simp)), ih (fun x hx => h x (by simp [hx]))]

lemma jsDigitsAux_eq_rec (b : ℕ) (hb : 2 ≤ b) :
    ∀ (fuel n : ℕ) (acc : List Char), n < fuel →
    jsDigitsAux b fuel n acc = jsDigitsRec b n acc := by
  intro fuel
  induction fuel with
  | zero => intro n acc h; omega
  | succ f ih =>
    intro n acc h
    rw [jsDigitsAux]
    by_cases hn : n < b
    · rw [if_pos hn, jsDigitsRec, dif_pos (Or.inr hn)]
    · rw [if_neg hn, jsDigitsRec, dif_neg (by omega)]
      have hdiv : n / b < n := Nat.div_lt_self (by omega) (by omega)
      exact ih (n / b) _ (by omega)

lemma jsDigitsRec_base (b n : ℕ) (acc : List Char) (h : n < b) :
    jsDigitsRec b n acc = Nat.digitChar n :: acc := by
  rw [jsDigitsRec, dif_pos (Or.inr h)]

lemma jsDigitsRec_step (b n : ℕ) (acc : List Char) (hb : 2 ≤ b) (hn : b ≤ n) :
    jsDigitsRec b n acc = jsDigitsRec b (n / b) (Nat.digitChar (n % b) :: acc) := by
  rw [jsDigitsRec, dif_neg (by omega)]

lemma toString16_eq_rec (n : ℕ) : toString16 n = jsDigitsRec 16 n [] :=
  jsDigitsAux_eq_rec 16 (by omega) (n + 1) n [] (by omega)

lemma toString16_one_digit (m : ℕ) (h : m < 16) :
    toString16 m = [Nat.digitChar m] := by
  rw [toString16_eq_rec, jsDigitsRec_base 16 m [] h]

lemma toString16_two_digit (m : ℕ) (h16 : 16 ≤ m) (h : m ≤ 255) :
    toString16 m = [Nat.digitChar (m / 16), Nat.digitChar (m % 16)] := by
  rw [toString16_eq_rec, jsDigitsRec_step 16 m [] (by omega) h16,
    jsDigitsRec_base 16 (m / 16) _ (by omega)]

lemma padZero_toString16 (m : ℕ) (h : m ≤ 255) :
    padZero (toString16 m) = [Nat.digitChar (m / 16), Nat.digitChar (m % 16)] := by
  by_cases h16 : m < 16
  · rw [toString16_one_digit m h16]
    have hm : m / 16 = 0 := by omega
    have hm2 : m % 16 = m := by omega
    rw [hm, hm2]
    rfl
  · rw [toString16_two_digit m (by omega) h, padZero, if_neg (by simp)]

lemma toString16_rgb (r g b : ℕ) (hr : r ≤ 255) (hg : g ≤ 255) (hb : b ≤ 255) :
    toString16 (16777216 + 65536 * r + 256 * g + b) =
    ['1', Nat.digitChar (r / 16), Nat.digitChar (r % 16), Nat.digitChar (g / 16),
     Nat.digitChar (g % 16), Nat.digitChar (b / 16), Nat.digitChar (b % 16)] := by
  rw [toString16_eq_rec]
  rw [jsDigitsRec_step 16 _ _ (by omega) (by omega),
    (by omega : (16777216 + 65536 * r + 256 * g + b) % 16 = b % 16),
    (by omega : (16777216 + 65536 * r + 256 * g + b) / 16 = 1048576 + 4096 * r + 16 * g + b / 16)]
  rw [jsDigitsRec_step 16 _ _ (by omega) (by omega),
    (by omega : (1048576 + 4096 * r + 16 * g + b / 16) % 16 = b / 16),
    (by omega : (1048576 + 4096 * r + 16 * g + b / 16) / 16 = 65536 + 256 * r + g)]
  rw [jsDigitsRec_step 16 _ _ (by omega) (by omega),
    (by omega : (65536 + 256 * r + g) % 16 = g % 16),
    (by omega : (65536 + 256 * r + g) / 16 = 4096 + 16 * r + g / 16)]
  rw [jsDigitsRec_step 16 _ _ (by omega) (by omega),
    (by omega : (4096 + 16 * r + g / 16) % 16 = g / 16),
    (by omega : (4096 + 16 * r + g / 16) / 16 = 256 + r)]
  rw [jsDigitsRec_step 16 _ _ (by omega) (by omega),
    (by omega : (256 + r) % 16 = r % 16),
    (by omega : (256 + r) / 16 = 16 + r / 16)]
  rw [jsDigitsRec_step 16 _ _ (by omega) (by omega),
    (by omega : (16 + r / 16) % 16 = r / 16),
    (by omega : (16 + r / 16) / 16 = 1)]
  rw [jsDigitsRec_base 16 1 _ (by omega)]
  rfl

lemma rgbToHex_eq (r g b : ℕ) (hr : r ≤ 255) (hg : g ≤ 255) (hb : b ≤ 255) :
    rgbToHex r g b =
    ['#', Nat.digitChar (r / 16), Nat.digitChar (r % 16), Nat.digitChar (g / 16),
     Nat.digitChar (g % 16), Nat.digitChar (b / 16), Nat.digitChar (b % 16)] := by
  have hsg : g <<< 8 = g * 256 := by rw [Nat.shiftLeft_eq]
  have hsr : r <<< 16 = r * 65536 := by rw [Nat.shiftLeft_eq]
  have e1 : b ||| g * 256 = g * 256 + b := by
    have h := Nat.mul_add_lt_is_or (i := 8) (show b < 2 ^ 8 by omega) g
    rw [(by ring : (2:ℕ) ^ 8 * g = g * 256)] at h
    rw [Nat.or_comm]
    exact h.symm
  have e2 : (g * 256 + b) ||| r * 65536 = r * 65536 + (g * 256 + b) := by
    have h := Nat.mul_add_lt_is_or (i := 16) (show g * 256 + b < 2 ^ 16 by omega) r
    rw [(by ring : (2:ℕ) ^ 16 * r = r * 65536)] at h
    rw [Nat.or_comm]
    exact h.symm
  have e3 : 0x1000000 ||| (r * 65536 + (g * 256 + b)) =
      16777216 + (r * 65536 + (g * 256 + b)) := by
    have h := Nat.mul_add_lt_is_or (i := 24)
      (show r * 65536 + (g * 256 + b) < 2 ^ 24 by omega) 1
    rw [(by ring : (2:ℕ) ^ 24 * 1 = 16777216)] at h
    exact h.symm
  simp only [rgbToHex, hsg, hsr, e1, e2, e3]
  rw [(by ring : 16777216 + (r * 65536 + (g * 256 + b)) = 16777216 + 65536 * r + 256 * g + b)]
  rw [toString16_rgb r g b hr hg hb]
  rfl


lemma hex_ne_hash (c : Char) (h : isHexDigitB c = true) : c.toNat ≠ 35 := by
  rcases hex_range c h with h1 | h1 | h1 <;> omega

lemma char_eq_ofNat (c : Char) (n : ℕ) (h : c.toNat = n) : c = Char.ofNat n := by
  rw [← h, Char.ofNat_toNat]

lemma isHexDigitB_digitChar (d : ℕ) (h : d < 16) :
    isHexDigitB (Nat.digitChar d) = true := by
  interval_cases d <;> decide

lemma hexVal_digitChar (d : ℕ) (h : d < 16) : hexVal (Nat.digitChar d) = d := by
  interval_cases d <;> decide

lemma toLowerChar_of_not_upper (c : Char) (h : ¬(65 ≤ c.toNat ∧ c.toNat ≤ 90)) :
    toLowerChar c = c := by
  simp only [toLowerChar, if_neg h]

lemma digitChar_hexVal_lower (c : Char) (h : isHexDigitB c = true) :
    Nat.digitChar (hexVal c) = toLowerChar c := by
  rcases hex_range c h with h1 | h1 | h1
  · obtain ⟨n, hn, ha, hb⟩ : ∃ n, c.toNat = n ∧ 48 ≤ n ∧ n ≤ 57 :=
      ⟨c.toNat, rfl, h1.1, h1.2⟩
    interval_cases n <;> (rw [char_eq_ofNat c _ hn]; decide)
  · obtain ⟨n, hn, ha, hb⟩ : ∃ n, c.toNat = n ∧ 97 ≤ n ∧ n ≤ 102 :=
      ⟨c.toNat, rfl, h1.1, h1.2⟩
    interval_cases n <;> (rw [char_eq_ofNat c _ hn]; decide)
  · obtain ⟨n, hn, ha, hb⟩ : ∃ n, c.toNat = n ∧ 65 ≤ n ∧ n ≤ 70 :=
      ⟨c.toNat, rfl, h1.1, h1.2⟩
    interval_cases n <;> (rw [char_eq_ofNat c _ hn]; decide)

lemma digitChar_hexVal_self (c : Char) (h : isLowerHexB c = true) :
    Nat.digitChar (hexVal c) = c := by
  have hd := lowerHex_isHexDigitB c h
  rw [digitChar_hexVal_lower c hd]
  apply toLowerChar_of_not_upper
  simp only [isLowerHexB, Bool.or_eq_true, Bool.and_eq_true, decide_eq_true_eq] at h
  omega

lemma pairVal_toNat (c d : Char) : (pairVal c d).toNat = 16 * hexVal c + hexVal d := by
  unfold pairVal
  omega

lemma pairVal_le (c d : Char) (hc : isHexDigitB c = true) (hd : isHexDigitB d = true) :
    (pairVal c d).toNat ≤ 255 := by
  have h1 := hexVal_lt c hc
  have h2 := hexVal_lt d hd
  unfold pairVal
  omega

lemma hexToRgb_six (c1 c2 c3 c4 c5 c6 : Char) :
    hexToRgb ['#', c1, c2, c3, c4, c5, c6] =
    .ok (parseInt16 [c1, c2], parseInt16 [c3, c4], parseInt16 [c5, c6]) := rfl

lemma hexToRgb_six_pair (c1 c2 c3 c4 c5 c6 : Char)
    (h1 : isHexDigitB c1 = true) (h2 : isHexDigitB c2 = true)
    (h3 : isHexDigitB c3 = true) (h4 : isHexDigitB c4 = true)
    (h5 : isHexDigitB c5 = true) (h6 : isHexDigitB c6 = true) :
    hexToRgb ['#', c1, c2, c3, c4, c5, c6] =
    .ok (some (pairVal c1 c2), some (pairVal c3 c4), some (pairVal c5 c6)) := by
  rw [hexToRgb_six, parseInt16_pair c1 c2 h1 h2, parseInt16_pair c3 c4 h3 h4,
    parseInt16_pair c5 c6 h5 h6]
  rfl

/-- C1: for integer channels `r`, `g`, `b` in `[0, 255]`, decoding the hex
string produced by `rgbToHex` returns exactly `(r, g, b)`: the
RGB-to-hex-to-RGB round trip is lossless. -/
theorem rgb_hex_roundtrip (r g b : ℕ) (hr : r ≤ 255) (hg : g ≤ 255) (hb : b ≤ 255) :
    hexToRgb (rgbToHex r g b) = .ok (some (r : ℤ), some (g : ℤ), some (b : ℤ)) := by
  rw [rgbToHex_eq r g b hr hg hb]
  rw [show (['#', Nat.digitChar (r / 16), Nat.digitChar (r % 16), Nat.digitChar (g / 16),
      Nat.digitChar (g % 16), Nat.digitChar (b / 16), Nat.digitChar (b % 16)] : List Char) =
      '#' :: [Nat.digitChar (r / 16), Nat.digitChar (r % 16), Nat.digitChar (g / 16),
      Nat.digitChar (g % 16), Nat.digitChar (b / 16), Nat.digitChar (b % 16)] from rfl]
  rw [hexToRgb_six]
  rw [parseInt16_pair _ _ (isHexDigitB_digitChar _ (by omega)) (isHexDigitB_digitChar _ (by omega)),
    parseInt16_pair _ _ (isHexDigitB_digitChar _ (by omega)) (isHexDigitB_digitChar _ (by omega)),
    parseInt16_pair _ _ (isHexDigitB_digitChar _ (by omega)) (isHexDigitB_digitChar _ (by omega))]
  rw [hexVal_digitChar _ (by omega), hexVal_digitChar _ (by omega),
    hexVal_digitChar _ (by omega), hexVal_digitChar _ (by omega),
    hexVal_digitChar _ (by omega), hexVal_digitChar _ (by omega)]
  have er : (16 * ((r / 16 : ℕ) : ℤ) + ((r % 16 : ℕ) : ℤ)) = (r : ℤ) := by omega
  have eg : (16 * ((g / 16 : ℕ) : ℤ) + ((g % 16 : ℕ) : ℤ)) = (g : ℤ) := by omega
  have eb : (16 * ((b / 16 : ℕ) : ℤ) + ((b % 16 : ℕ) : ℤ)) = (b : ℤ) := by omega
  rw [er, eg, eb]

/-- Witness for C1 at the channels `(1, 171, 255)`. -/
theorem rgb_hex_roundtrip_witness :
    hexToRgb (rgbToHex 1 171 255) = .ok (some (1 : ℤ), some (171 : ℤ), some (255 : ℤ)) :=
  rgb_hex_roundtrip 1 171 255 (by decide) (by decide) (by decide)

lemma hexToRgb_congr_removeFirst (cs ds : List Char)
    (h : removeFirst cs = removeFirst ds) : hexToRgb cs = hexToRgb ds := by
  simp only [hexToRgb, h]

/-- C7 (amended): `hexToRgb` throws its InvalidFormat error exactly when the
length after removing the first occurrence of `#` anywhere in the input is
neither 3 nor 6; a 3-digit input yields the same triple as its duplicated
6-digit expansion; `hexToRgb "12345"` fails; `hexToRgb "#fff"` is
`(255, 255, 255)`; and `hexToRgb "abc"` equals `hexToRgb "#abc"`. -/
theorem hexToRgb_invalid_format :
    (∀ cs : List Char,
      hexToRgb cs = .error (("Invalid HEX color format. Expected 3 or 6 characters").toList) ↔
      ((removeFirst cs).length ≠ 3 ∧ (removeFirst cs).length ≠ 6)) ∧
    hexToRgb ("12345").toList =
      .error (("Invalid HEX color format. Expected 3 or 6 characters").toList) ∧
    hexToRgb ("#fff").toList = .ok (some 255, some 255, some 255) ∧
    (∀ c1 c2 c3 : Char, hexToRgb ['#', c1, c2, c3] = hexToRgb ['#', c1, c1, c2, c2, c3, c3]) ∧
    hexToRgb ("abc").toList = hexToRgb ("#abc").toList := by
  refine ⟨?_, by decide, by decide, ?_, by decide⟩
  · intro cs
    simp only [hexToRgb]
    split_ifs with h3 h6
    · simp [h3]
    · simp [h6]
    · simp [h3, h6]
  · intro c1 c2 c3
    rfl

/-- C7 counterexample: on `"a#bc"` the leading character is not `#` (so the
claim's condition, length 4 after stripping an optional leading `#`, demands
an InvalidFormat error), yet the code removes the interior `#`, obtains the
3-digit string `"abc"` and returns a triple. -/
theorem hexToRgb_midstring_hash_cex :
    hexToRgb ("a#bc").toList = .ok (some 170, some 187, some 204) ∧
    (if ("a#bc").toList.headD ' ' = '#'
      then ("a#bc").toList.drop 1 else ("a#bc").toList).length = 4 := by
  decide

/-- C2 (amended): for a 6-digit hex string carrying its leading `#`, the
hex-to-RGB-to-hex round trip returns the same color, lowercased: it equals
the input up to letter case, and the output is always `"#rrggbb"` in
lowercase.  A 6-digit input *without* `#` decodes identically, but the round
trip then returns `'#'` followed by the lowercased input, which differs from
the input by the added `#`. -/
theorem hex_rgb_hex_roundtrip (c1 c2 c3 c4 c5 c6 : Char)
    (h1 : isHexDigitB c1 = true) (h2 : isHexDigitB c2 = true)
    (h3 : isHexDigitB c3 = true) (h4 : isHexDigitB c4 = true)
    (h5 : isHexDigitB c5 = true) (h6 : isHexDigitB c6 = true) :
    hexToRgb ['#', c1, c2, c3, c4, c5, c6] =
      .ok (some (pairVal c1 c2), some (pairVal c3 c4), some (pairVal c5 c6)) ∧
    hexToRgb [c1, c2, c3, c4, c5, c6] = hexToRgb ['#', c1, c2, c3, c4, c5, c6] ∧
    rgbToHex (pairVal c1 c2).toNat (pairVal c3 c4).toNat (pairVal c5 c6).toNat =
      List.map toLowerChar ['#', c1, c2, c3, c4, c5, c6] := by
  refine ⟨hexToRgb_six_pair c1 c2 c3 c4 c5 c6 h1 h2 h3 h4 h5 h6, ?_, ?_⟩
  · apply hexToRgb_congr_removeFirst
    rw [removeFirst_hash]
    apply removeFirst_no_hash
    intro c hc
    simp only [List.mem_cons, List.not_mem_nil, or_false] at hc
    rcases hc with h | h | h | h | h | h <;>
      rw [h] <;>
      first
        | exact hex_ne_hash c1 h1
        | exact hex_ne_hash c2 h2
        | exact hex_ne_hash c3 h3
        | exact hex_ne_hash c4 h4
        | exact hex_ne_hash c5 h5
        | exact hex_ne_hash c6 h6
  · have v1 := hexVal_lt c1 h1
    have v2 := hexVal_lt c2 h2
    have v3 := hexVal_lt c3 h3
    have v4 := hexVal_lt c4 h4
    have v5 := hexVal_lt c5 h5
    have v6 := hexVal_lt c6 h6
    rw [pairVal_toNat c1 c2, pairVal_toNat c3 c4, pairVal_toNat c5 c6]
    rw [rgbToHex_eq _ _ _ (by omega) (by omega) (by omega)]
    rw [(by omega : (16 * hexVal c1 + hexVal c2) / 16 = hexVal c1),
      (by omega : (16 * hexVal c1 + hexVal c2) % 16 = hexVal c2),
      (by omega : (16 * hexVal c3 + hexVal c4) / 16 = hexVal c3),
      (by omega : (16 * hexVal c3 + hexVal c4) % 16 = hexVal c4),
      (by omega : (16 * hexVal c5 + hexVal c6) / 16 = hexVal c5),
      (by omega : (16 * hexVal c5 + hexVal c6) % 16 = hexVal c6)]
    rw [digitChar_hexVal_lower c1 h1, digitChar_hexVal_lower c2 h2,
      digitChar_hexVal_lower c3 h3, digitChar_hexVal_lower c4 h4,
      digitChar_hexVal_lower c5 h5, digitChar_hexVal_lower c6 h6]
    simp [List.map, show toLowerChar '#' = '#' from rfl]

/-- Witness for C2 at the mixed-case input `"#AaBbCc"`. -/
theorem hex_rgb_hex_roundtrip_witness :
    hexToRgb ['#', 'A', 'a', 'B', 'b', 'C', 'c'] =
      .ok (some (pairVal 'A' 'a'), some (pairVal 'B' 'b'), some (pairVal 'C' 'c')) ∧
    hexToRgb ['A', 'a', 'B', 'b', 'C', 'c'] = hexToRgb ['#', 'A', 'a', 'B', 'b', 'C', 'c'] ∧
    rgbToHex (pairVal 'A' 'a').toNat (pairVal 'B' 'b').toNat (pairVal 'C' 'c').toNat =
      List.map toLowerChar ['#', 'A', 'a', 'B', 'b', 'C', 'c'] :=
  hex_rgb_hex_roundtrip 'A' 'a' 'B' 'b' 'C' 'c'
    (by decide) (by decide) (by decide) (by decide) (by decide) (by decide)

/-- C2 counterexample: the 6-digit hex string `"aabbcc"` (no `#`) decodes to
`(170, 187, 204)`, but the round trip returns `"#aabbcc"`, which differs from
the input even ignoring letter case. -/
theorem hex_rgb_hex_roundtrip_cex :
    hexToRgb ("aabbcc").toList = .ok (some 170, some 187, some 204) ∧
    rgbToHex 170 187 204 = ("#aabbcc").toList ∧
    List.map toLowerChar (rgbToHex 170 187 204) ≠
      List.map toLowerChar (("aabbcc").toList) := by
  decide

lemma invertColor_hash (cs : List Char) (bw : Bool) :
    invertColor ('#' :: cs) bw = invertColorCore cs bw := rfl

lemma invertColor_no_hash (c : Char) (cs : List Char) (bw : Bool) (h : c.toNat ≠ 35) :
    invertColor (c :: cs) bw = invertColorCore (c :: cs) bw := by
  simp only [invertColor, if_neg h]

lemma invertColorCore_six (c1 c2 c3 c4 c5 c6 : Char) (bw : Bool) :
    invertColorCore [c1, c2, c3, c4, c5, c6] bw =
    if bw then
      .ok (if lumaGt186 (parseInt16 [c1, c2]) (parseInt16 [c3, c4]) (parseInt16 [c5, c6])
        then ("#000000").toList else ("#FFFFFF").toList)
    else
      .ok ('#' :: (padZero (jsIntToString16 (jsSub255 (parseInt16 [c1, c2]))) ++
                   padZero (jsIntToString16 (jsSub255 (parseInt16 [c3, c4]))) ++
                   padZero (jsIntToString16 (jsSub255 (parseInt16 [c5, c6]))))) := rfl

lemma invertColor_false_channels (c1 c2 c3 c4 c5 c6 : Char)
    (h1 : isHexDigitB c1 = true) (h2 : isHexDigitB c2 = true)
    (h3 : isHexDigitB c3 = true) (h4 : isHexDigitB c4 = true)
    (h5 : isHexDigitB c5 = true) (h6 : isHexDigitB c6 = true) :
    invertColor ['#', c1, c2, c3, c4, c5, c6] false =
    .ok ['#',
      Nat.digitChar ((255 - (16 * hexVal c1 + hexVal c2)) / 16),
      Nat.digitChar ((255 - (16 * hexVal c1 + hexVal c2)) % 16),
      Nat.digitChar ((255 - (16 * hexVal c3 + hexVal c4)) / 16),
      Nat.digitChar ((255 - (16 * hexVal c3 + hexVal c4)) % 16),
      Nat.digitChar ((255 - (16 * hexVal c5 + hexVal c6)) / 16),
      Nat.digitChar ((255 - (16 * hexVal c5 + hexVal c6)) % 16)] := by
  have v1 := hexVal_lt c1 h1
  have v2 := hexVal_lt c2 h2
  have v3 := hexVal_lt c3 h3
  have v4 := hexVal_lt c4 h4
  have v5 := hexVal_lt c5 h5
  have v6 := hexVal_lt c6 h6
  rw [invertColor_hash, invertColorCore_six]
  rw [parseInt16_pair c1 c2 h1 h2, parseInt16_pair c3 c4 h3 h4, parseInt16_pair c5 c6 h5 h6]
  simp only [Bool.false_eq_true, if_false, jsSub255, Option.map_some', jsIntToString16]
  rw [if_neg (by omega : ¬((255 : ℤ) - (16 * (hexVal c1 : ℤ) + (hexVal c2 : ℤ)) < 0)),
    if_neg (by omega : ¬((255 : ℤ) - (16 * (hexVal c3 : ℤ) + (hexVal c4 : ℤ)) < 0)),
    if_neg (by omega : ¬((255 : ℤ) - (16 * (hexVal c5 : ℤ) + (hexVal c6 : ℤ)) < 0))]
  rw [(by omega : ((255 : ℤ) - (16 * (hexVal c1 : ℤ) + (hexVal c2 : ℤ))).toNat =
      255 - (16 * hexVal c1 + hexVal c2)),
    (by omega : ((255 : ℤ) - (16 * (hexVal c3 : ℤ) + (hexVal c4 : ℤ))).toNat =
      255 - (16 * hexVal c3 + hexVal c4)),
    (by omega : ((255 : ℤ) - (16 * (hexVal c5 : ℤ) + (hexVal c6 : ℤ))).toNat =
      255 - (16 * hexVal c5 + hexVal c6))]
  rw [padZero_toString16 _ (by omega), padZero_toString16 _ (by omega),
    padZero_toString16 _ (by omega)]
  rfl

/-- C5 (amended): on hex strings of the form `#` followed by six *lowercase*
hexadecimal digits, `invertColor (·, false)` composed with itself is the
identity; for other valid hex inputs (missing `#`, uppercase digits, or the
3-digit form) the double inversion returns the canonical lowercase `#rrggbb`
rendering of the same color rather than the original string. -/
theorem invertColor_involution (c1 c2 c3 c4 c5 c6 : Char)
    (h1 : isLowerHexB c1 = true) (h2 : isLowerHexB c2 = true)
    (h3 : isLowerHexB c3 = true) (h4 : isLowerHexB c4 = true)
    (h5 : isLowerHexB c5 = true) (h6 : isLowerHexB c6 = true) :
    (invertColor ['#', c1, c2, c3, c4, c5, c6] false).bind
      (fun s => invertColor s false) = .ok ['#', c1, c2, c3, c4, c5, c6] := by
  have hd1 := lowerHex_isHexDigitB c1 h1
  have hd2 := lowerHex_isHexDigitB c2 h2
  have hd3 := lowerHex_isHexDigitB c3 h3
  have hd4 := lowerHex_isHexDigitB c4 h4
  have hd5 := lowerHex_isHexDigitB c5 h5
  have hd6 := lowerHex_isHexDigitB c6 h6
  have v1 := hexVal_lt c1 hd1
  have v2 := hexVal_lt c2 hd2
  have v3 := hexVal_lt c3 hd3
  have v4 := hexVal_lt c4 hd4
  have v5 := hexVal_lt c5 hd5
  have v6 := hexVal_lt c6 hd6
  rw [invertColor_false_channels c1 c2 c3 c4 c5 c6 hd1 hd2 hd3 hd4 hd5 hd6]
  simp only [Except.bind]
  rw [invertColor_false_channels _ _ _ _ _ _
    (isHexDigitB_digitChar _ (by omega)) (isHexDigitB_digitChar _ (by omega))
    (isHexDigitB_digitChar _ (by omega)) (isHexDigitB_digitChar _ (by omega))
    (isHexDigitB_digitChar _ (by omega)) (isHexDigitB_digitChar _ (by omega))]
  rw [hexVal_digitChar _ (by omega), hexVal_digitChar _ (by omega),
    hexVal_digitChar _ (by omega), hexVal_digitChar _ (by omega),
    hexVal_digitChar _ (by omega), hexVal_digitChar _ (by omega)]
  rw [(by omega : 255 - (16 * ((255 - (16 * hexVal c1 + hexVal c2)) / 16) +
      (255 - (16 * hexVal c1 + hexVal c2)) % 16) = 16 * hexVal c1 + hexVal c2),
    (by omega : 255 - (16 * ((255 - (16 * hexVal c3 + hexVal c4)) / 16) +
      (255 - (16 * hexVal c3 + hexVal c4)) % 16) = 16 * hexVal c3 + hexVal c4),
    (by omega : 255 - (16 * ((255 - (16 * hexVal c5 + hexVal c6)) / 16) +
      (255 - (16 * hexVal c5 + hexVal c6)) % 16) = 16 * hexVal c5 + hexVal c6)]
  rw [(by omega : (16 * hexVal c1 + hexVal c2) / 16 = hexVal c1),
    (by omega : (16 * hexVal c1 + hexVal c2) % 16 = hexVal c2),
    (by omega : (16 * hexVal c3 + hexVal c4) / 16 = hexVal c3),
    (by omega : (16 * hexVal c3 + hexVal c4) % 16 = hexVal c4),
    (by omega : (16 * hexVal c5 + hexVal c6) / 16 = hexVal c5),
    (by omega : (16 * hexVal c5 + hexVal c6) % 16 = hexVal c6)]
  rw [digitChar_hexVal_self c1 h1, digitChar_hexVal_self c2 h2,
    digitChar_hexVal_self c3 h3, digitChar_hexVal_self c4 h4,
    digitChar_hexVal_self c5 h5, digitChar_hexVal_self c6 h6]

/-- Witness for C5 at `"#0af9e3"`. -/
theorem invertColor_involution_witness :
    (invertColor ['#', '0', 'a', 'f', '9', 'e', '3'] false).bind
      (fun s => invertColor s false) = .ok ['#', '0', 'a', 'f', '9', 'e', '3'] :=
  invertColor_involution '0' 'a' 'f' '9' 'e' '3'
    (by decide) (by decide) (by decide) (by decide) (by decide) (by decide)

/-- C5 counterexample: `"#abc"` is a valid hex color, but double inversion
returns its 6-digit expansion `"#aabbcc"`, not `"#abc"` itself — per-channel
inversion is not an involution on the whole domain of valid hex strings. -/
theorem invertColor_involution_cex :
    (invertColor ("#abc").toList false).bind (fun s => invertColor s false) =
      .ok ("#aabbcc").toList ∧
    ("#aabbcc").toList ≠ ("#abc").toList := by
  decide

lemma int_log_eval (x : ℚ) (e : ℤ) (hx : 0 < x)
    (h1 : (2:ℚ) ^ e ≤ x) (h2 : x < (2:ℚ) ^ (e + 1)) :
    Int.log 2 x = e := by
  have hc : ((2:ℕ) : ℚ) = (2:ℚ) := by norm_num
  have ha : e ≤ Int.log 2 x := by
    rw [← Int.zpow_le_iff_le_log (by norm_num) hx, hc]
    exact h1
  have hb : Int.log 2 x < e + 1 := by
    rw [← Int.lt_zpow_iff_log_lt (by norm_num) hx, hc]
    exact h2
  omega

lemma fl64_eval (x : ℚ) (e m : ℤ) (hx : 0 < x)
    (h1 : (2:ℚ) ^ e ≤ x) (h2 : x < (2:ℚ) ^ (e + 1))
    (hm : rne2 (x * (2:ℚ) ^ (52 - e)) = m) :
    fl64 x = (m : ℚ) * (2:ℚ) ^ (e - 52) := by
  simp only [fl64]
  rw [if_neg (ne_of_gt hx), abs_of_pos hx, int_log_eval x e hx h1 h2, hm,
    if_neg (not_lt.mpr hx.le)]
  ring

lemma fl64_zero : fl64 0 = 0 := by
  simp [fl64]

lemma fl64_c299 : fl64 (0.299 : ℚ) = (5386305154335113 : ℚ) / 18014398509481984 := by
  have h := fl64_eval (0.299 : ℚ) (-2) 5386305154335113 (by norm_num) (by norm_num) (by norm_num)
    (by unfold rne2; norm_num)
  rw [h]
  norm_num

lemma fl64_c587 : fl64 (0.587 : ℚ) = (2643612981266481 : ℚ) / 4503599627370496 := by
  have h := fl64_eval (0.587 : ℚ) (-1) 5287225962532962 (by norm_num) (by norm_num) (by norm_num)
    (by unfold rne2; norm_num)
  rw [h]
  norm_num

lemma fl64_c114 : fl64 (0.114 : ℚ) = (8214565720323785 : ℚ) / 72057594037927936 := by
  have h := fl64_eval (0.114 : ℚ) (-4) 8214565720323785 (by norm_num) (by norm_num) (by norm_num)
    (by unfold rne2; norm_num)
  rw [h]
  norm_num

lemma fl64_aae_m1 :
    fl64 ((457835938118484605 : ℚ) / 9007199254740992) =
    (3576843266550661 : ℚ) / 70368744177664 := by
  have h := fl64_eval ((457835938118484605 : ℚ) / 9007199254740992) 5 7153686533101322
    (by norm_num) (by norm_num) (by norm_num) (by unfold rne2; norm_num)
  rw [h]
  norm_num

lemma fl64_aae_m2 :
    fl64 ((298728266883112353 : ℚ) / 2251799813685248) =
    (4667629170048631 : ℚ) / 35184372088832 := by
  have h := fl64_eval ((298728266883112353 : ℚ) / 2251799813685248) 7 4667629170048631
    (by norm_num) (by norm_num) (by norm_num) (by unfold rne2; norm_num)
  rw [h]
  norm_num

lemma fl64_aae_m3 :
    fl64 ((90360222923561635 : ℚ) / 36028797018963968) =
    (2823756966361301 : ℚ) / 1125899906842624 := by
  have h := fl64_eval ((90360222923561635 : ℚ) / 36028797018963968) 1 5647513932722602
    (by norm_num) (by norm_num) (by norm_num) (by unfold rne2; norm_num)
  rw [h]
  norm_num

lemma fl64_aae_s1 :
    fl64 ((12912101606647923 : ℚ) / 70368744177664) =
    (3228025401661981 : ℚ) / 17592186044416 := by
  have h := fl64_eval ((12912101606647923 : ℚ) / 70368744177664) 7 6456050803323962
    (by norm_num) (by norm_num) (by norm_num) (by unfold rne2; norm_num)
  rw [h]
  norm_num

lemma fl64_aae_s2 :
    fl64 ((209417382672728085 : ℚ) / 1125899906842624) =
    (6544293208522753 : ℚ) / 35184372088832 := by
  have h := fl64_eval ((209417382672728085 : ℚ) / 1125899906842624) 7 6544293208522753
    (by norm_num) (by norm_num) (by norm_num) (by unfold rne2; norm_num)
  rw [h]
  norm_num

lemma fl64_white_m1 :
    fl64 ((1373507814355453815 : ℚ) / 18014398509481984) =
    (5365264899825991 : ℚ) / 70368744177664 := by
  have h := fl64_eval ((1373507814355453815 : ℚ) / 18014398509481984) 6 5365264899825991
    (by norm_num) (by norm_num) (by norm_num) (by unfold rne2; norm_num)
  rw [h]
  norm_num

lemma fl64_white_m2 :
    fl64 ((674121310222952655 : ℚ) / 4503599627370496) =
    (2633286368058409 : ℚ) / 17592186044416 := by
  have h := fl64_eval ((674121310222952655 : ℚ) / 4503599627370496) 7 5266572736116818
    (by norm_num) (by norm_num) (by norm_num) (by unfold rne2; norm_num)
  rw [h]
  norm_num

lemma fl64_white_m3 :
    fl64 ((2094714258682565175 : ℚ) / 72057594037927936) =
    (4091238786489385 : ℚ) / 140737488355328 := by
  have h := fl64_eval ((2094714258682565175 : ℚ) / 72057594037927936) 4 8182477572978770
    (by norm_num) (by norm_num) (by norm_num) (by unfold rne2; norm_num)
  rw [h]
  norm_num

lemma fl64_white_s1 :
    fl64 ((15898410372059627 : ℚ) / 70368744177664) =
    (3974602593014907 : ℚ) / 17592186044416 := by
  have h := fl64_eval ((15898410372059627 : ℚ) / 70368744177664) 7 7949205186029814
    (by norm_num) (by norm_num) (by norm_num) (by unfold rne2; norm_num)
  rw [h]
  norm_num

lemma fl64_white_s2 :
    fl64 ((35888059530608641 : ℚ) / 140737488355328) = (255 : ℚ) := by
  have h := fl64_eval ((35888059530608641 : ℚ) / 140737488355328) 7 8972014882652160
    (by norm_num) (by norm_num) (by norm_num) (by unfold rne2; norm_num)
  rw [h]
  norm_num

lemma flLuma_aae : flLuma 170 226 22 = (6544293208522753 : ℚ) / 35184372088832 := by
  simp only [flLuma]
  rw [fl64_c299, fl64_c587, fl64_c114]
  norm_num
  rw [fl64_aae_m1, fl64_aae_m2, fl64_aae_m3]
  norm_num
  rw [fl64_aae_s1]
  norm_num
  rw [fl64_aae_s2]

lemma flLuma_white : flLuma 255 255 255 = 255 := by
  simp only [flLuma]
  rw [fl64_c299, fl64_c587, fl64_c114]
  norm_num
  rw [fl64_white_m1, fl64_white_m2, fl64_white_m3]
  norm_num
  rw [fl64_white_s1]
  norm_num
  rw [fl64_white_s2]

lemma flLuma_black : flLuma 0 0 0 = 0 := by
  simp only [flLuma]
  norm_num [fl64_zero]

lemma invertColor_true_six (c1 c2 c3 c4 c5 c6 : Char)
    (h1 : isHexDigitB c1 = true) (h2 : isHexDigitB c2 = true)
    (h3 : isHexDigitB c3 = true) (h4 : isHexDigitB c4 = true)
    (h5 : isHexDigitB c5 = true) (h6 : isHexDigitB c6 = true) :
    invertColor ['#', c1, c2, c3, c4, c5, c6] true =
    .ok (lumaRule64 (pairVal c1 c2) (pairVal c3 c4) (pairVal c5 c6)) := by
  rw [invertColor_hash, invertColorCore_six]
  rw [parseInt16_pair c1 c2 h1 h2, parseInt16_pair c3 c4 h3 h4, parseInt16_pair c5 c6 h5 h6]
  simp only [if_true, lumaGt186, lumaRule64, pairVal, decide_eq_true_eq]

lemma invertColorCore_three (c1 c2 c3 : Char) (bw : Bool) :
    invertColorCore [c1, c2, c3] bw = invertColorCore [c1, c1, c2, c2, c3, c3] bw := rfl

lemma invertColor_aae216 :
    invertColor ("#aae216").toList true = .ok (("#000000").toList) := by
  rw [show ("#aae216").toList = ['#', 'a', 'a', 'e', '2', '1', '6'] from rfl,
    invertColor_true_six 'a' 'a' 'e' '2' '1' '6'
      (by decide) (by decide) (by decide) (by decide) (by decide) (by decide),
    show pairVal 'a' 'a' = 170 from by decide,
    show pairVal 'e' '2' = 226 from by decide,
    show pairVal '1' '6' = 22 from by decide]
  simp only [lumaRule64, flLuma_aae]
  norm_num

/-- C6 (amended): on a valid hex input with decoded channels `(r, g, b)`,
`invertColor (·, true)` returns `"#000000"` exactly when the luma
`r * 0.299 + g * 0.587 + b * 0.114` *as the program computes it, in IEEE-754
binary64* exceeds 186, and `"#FFFFFF"` otherwise (`lumaRule64`); a leading
`#` is irrelevant and a 3-digit input uses the duplicated-digit channels;
white maps to black and black to white.  The binary64 comparison is not the
exact-arithmetic threshold of the original claim: at `"#aae216"` the decoded
channels `(170, 226, 22)` have exact luma exactly 186 — not exceeding the
threshold — yet accumulated rounding pushes the computed value above 186 and
the program returns `"#000000"`. -/
theorem invertColor_luma_threshold64 :
    (∀ (c : Char) (cs : List Char) (bw : Bool), c.toNat ≠ 35 →
      invertColor ('#' :: c :: cs) bw = invertColor (c :: cs) bw) ∧
    (∀ c1 c2 c3 c4 c5 c6 : Char,
      isHexDigitB c1 = true → isHexDigitB c2 = true → isHexDigitB c3 = true →
      isHexDigitB c4 = true → isHexDigitB c5 = true → isHexDigitB c6 = true →
      invertColor ['#', c1, c2, c3, c4, c5, c6] true =
        .ok (lumaRule64 (pairVal c1 c2) (pairVal c3 c4) (pairVal c5 c6))) ∧
    (∀ c1 c2 c3 : Char,
      isHexDigitB c1 = true → isHexDigitB c2 = true → isHexDigitB c3 = true →
      invertColor ['#', c1, c2, c3] true =
        .ok (lumaRule64 (pairVal c1 c1) (pairVal c2 c2) (pairVal c3 c3))) ∧
    invertColor ("#FFFFFF").toList true = .ok (("#000000").toList) ∧
    invertColor ("#000000").toList true = .ok (("#FFFFFF").toList) ∧
    invertColor ("#aae216").toList true = .ok (("#000000").toList) ∧
    (170 : ℚ) * 0.299 + (226 : ℚ) * 0.587 + (22 : ℚ) * 0.114 = 186 := by
  refine ⟨?_, fun c1 c2 c3 c4 c5 c6 h1 h2 h3 h4 h5 h6 =>
      invertColor_true_six c1 c2 c3 c4 c5 c6 h1 h2 h3 h4 h5 h6, ?_, ?_, ?_,
      invertColor_aae216, by norm_num⟩
  · intro c cs bw h
    rw [invertColor_hash, invertColor_no_hash c cs bw h]
  · intro c1 c2 c3 h1 h2 h3
    rw [show (['#', c1, c2, c3] : List Char) = '#' :: [c1, c2, c3] from rfl,
      invertColor_hash, invertColorCore_three,
      show invertColorCore [c1, c1, c2, c2, c3, c3] true =
        invertColor ['#', c1, c1, c2, c2, c3, c3] true from rfl]
    exact invertColor_true_six c1 c1 c2 c2 c3 c3 h1 h1 h2 h2 h3 h3
  · rw [show ("#FFFFFF").toList = ['#', 'F', 'F', 'F', 'F', 'F', 'F'] from rfl,
      invertColor_true_six 'F' 'F' 'F' 'F' 'F' 'F'
        (by decide) (by decide) (by decide) (by decide) (by decide) (by decide),
      show pairVal 'F' 'F' = 255 from by decide]
    simp only [lumaRule64, flLuma_white]
    norm_num
  · rw [show ("#000000").toList = ['#', '0', '0', '0', '0', '0', '0'] from rfl,
      invertColor_true_six '0' '0' '0' '0' '0' '0'
        (by decide) (by decide) (by decide) (by decide) (by decide) (by decide),
      show pairVal '0' '0' = 0 from by decide]
    simp only [lumaRule64, flLuma_black]
    norm_num

/-- Witness for C6: the hypothesised conjuncts applied at concrete inputs. -/
theorem invertColor_luma_threshold64_witness :
    invertColor ['#', '1', '2', '3', '4', '5', '6'] true =
      .ok (lumaRule64 (pairVal '1' '2') (pairVal '3' '4') (pairVal '5' '6')) ∧
    invertColor ['#', 'a', 'b', 'c'] true =
      .ok (lumaRule64 (pairVal 'a' 'a') (pairVal 'b' 'b') (pairVal 'c' 'c')) ∧
    invertColor ('#' :: 'f' :: ("f0011").toList) true = invertColor ('f' :: ("f0011").toList) true :=
  ⟨invertColor_luma_threshold64.2.1 '1' '2' '3' '4' '5' '6'
      (by decide) (by decide) (by decide) (by decide) (by decide) (by decide),
    invertColor_luma_threshold64.2.2.1 'a' 'b' 'c' (by decide) (by decide) (by decide),
    invertColor_luma_threshold64.1 'f' (("f0011").toList) true (by decide)⟩

/-- C6 counterexample: the exact-arithmetic reading of the threshold is
false of the program.  `"#aae216"` decodes to channels `(170, 226, 22)`,
whose luma `170 * 0.299 + 226 * 0.587 + 22 * 0.114` is exactly 186 — it
does not exceed 186, so the claim (and `lumaRule`, which follows the spec's
words) demands `"#FFFFFF"` — yet the program evaluates the expression in
binary64, where rounding yields a value just above 186, and returns
`"#000000"`. -/
theorem invertColor_luma_exact_cex :
    hexToRgb ("#aae216").toList = .ok (some 170, some 226, some 22) ∧
    invertColor ("#aae216").toList true = .ok (("#000000").toList) ∧
    ¬ ((170 : ℚ) * 0.299 + (226 : ℚ) * 0.587 + (22 : ℚ) * 0.114 > 186) ∧
    lumaRule 170 226 22 = ("#FFFFFF").toList := by
  refine ⟨by decide, invertColor_aae216, by norm_num, ?_⟩
  rw [lumaRule, if_neg (by norm_num)]

lemma takeWhile_nil_of_all_false (xs : List Char) (h : ∀ c ∈ xs, isHexDigitB c = false) :
    xs.takeWhile isHexDigitB = [] := by
  cases xs with
  | nil => rfl
  | cons a t => simp [List.takeWhile_cons, h a (by simp)]

lemma parseIntSign_snd_subset (ds : List Char) : ∀ c ∈ (parseIntSign ds).2, c ∈ ds := by
  intro c hc
  cases ds with
  | nil => exact hc
  | cons a t =>
    simp only [parseIntSign] at hc
    split_ifs at hc <;> simp at hc ⊢ <;> tauto

lemma stripHexPrefix_subset (ds : List Char) : ∀ c ∈ stripHexPrefix ds, c ∈ ds := by
  intro c hc
  rcases ds with _ | ⟨a, _ | ⟨b, t⟩⟩
  · exact hc
  · exact hc
  · simp only [stripHexPrefix] at hc
    split_ifs at hc
    · simp at hc ⊢
      tauto
    · exact hc

lemma parseInt16_none (cs : List Char) (h : ∀ c ∈ cs, isHexDigitB c = false) :
    parseInt16 cs = none := by
  simp only [parseInt16]
  rw [takeWhile_nil_of_all_false _ ?_]
  · rfl
  · intro c hc
    exact h c ((List.dropWhile_sublist _).subset
      (parseIntSign_snd_subset _ c (stripHexPrefix_subset _ c hc)))

lemma invertColorCore_length_six_ok (cs : List Char) (hlen : cs.length = 6) (bw : Bool) :
    ∃ s, invertColorCore cs bw = .ok s := by
  simp only [invertColorCore]
  norm_num [hlen]
  cases bw
  · exact ⟨_, rfl⟩
  · exact ⟨_, rfl⟩

/-- C10: only the length of a hex input is validated, never its characters —
for any 6-character string containing no `#`, `hexToRgb` returns a channel
triple and `invertColor` returns a string, with no error thrown; when in
addition no character is a hexadecimal digit, every parsed channel is the
JavaScript `NaN` (hence not a number in `[0, 255]`). -/
theorem length_only_validation (cs : List Char) (hlen : cs.length = 6)
    (hhash : ∀ c ∈ cs, c.toNat ≠ 35) :
    (∃ t, hexToRgb cs = .ok t) ∧
    (∀ bw : Bool, ∃ s, invertColor cs bw = .ok s) ∧
    ((∀ c ∈ cs, isHexDigitB c = false) → hexToRgb cs = .ok (none, none, none)) := by
  have hrm : removeFirst cs = cs := removeFirst_no_hash cs hhash
  have hexToRgb_eq : hexToRgb cs =
      .ok (parseInt16 (jsSlice cs 0 2), parseInt16 (jsSlice cs 2 4), parseInt16 (jsSlice cs 4 6)) := by
    simp only [hexToRgb, hrm, hlen]
    norm_num
  refine ⟨⟨_, hexToRgb_eq⟩, ?_, ?_⟩
  · intro bw
    cases cs with
    | nil => simp at hlen
    | cons c rest =>
      rw [invertColor_no_hash c rest bw (hhash c (by simp))]
      exact invertColorCore_length_six_ok (c :: rest) hlen bw
  · intro hnd
    rw [hexToRgb_eq]
    have slice_sub : ∀ a b : ℕ, ∀ c ∈ jsSlice cs a b, c ∈ cs := by
      intro a b c hc
      exact List.drop_subset a cs (List.take_subset _ _ hc)
    rw [parseInt16_none _ (fun c hc => hnd c (slice_sub 0 2 c hc)),
      parseInt16_none _ (fun c hc => hnd c (slice_sub 2 4 c hc)),
      parseInt16_none _ (fun c hc => hnd c (slice_sub 4 6 c hc))]

/-- Witness for C10 at the all-invalid-characters input `"zzzzzz"`. -/
theorem length_only_validation_witness :
    (∃ t, hexToRgb (("zzzzzz").toList) = .ok t) ∧
    (∀ bw : Bool, ∃ s, invertColor (("zzzzzz").toList) bw = .ok s) ∧
    ((∀ c ∈ ("zzzzzz").toList, isHexDigitB c = false) →
      hexToRgb (("zzzzzz").toList) = .ok (none, none, none)) :=
  length_only_validation (("zzzzzz").toList) (by decide) (by decide)

/-- C8: `loadData` throws `"URL is required"` synchronously — before the
model ever produces a network request — exactly for an absent or empty URL,
and produces the single GET request for any non-empty URL. -/
theorem loadData_requires_url :
    (∀ opts : LoadOptions, (opts.url = none ∨ opts.url = some []) →
      loadData opts = .error ⟨("URL is required").toList⟩) ∧
    (∀ (opts : LoadOptions) (u : List Char), opts.url = some u → u ≠ [] →
      loadData opts = .ok ⟨u⟩) := by
  constructor
  · intro opts h
    rcases h with h | h <;> simp [loadData, urlFalsy, h]
  · intro opts u h hne
    cases u with
    | nil => exact absurd rfl hne
    | cons a t => simp [loadData, urlFalsy, h]

/-- Witness for C8: an empty URL throws, a one-character URL is fetched. -/
theorem loadData_requires_url_witness :
    loadData ⟨some [], false, false⟩ = .error ⟨("URL is required").toList⟩ ∧
    loadData ⟨some ['u'], true, true⟩ = .ok ⟨['u']⟩ :=
  ⟨loadData_requires_url.1 ⟨some [], false, false⟩ (Or.inr rfl),
    loadData_requires_url.2 ⟨some ['u'], true, true⟩ ['u'] rfl (by simp)⟩

/-- C9: on a response with a non-2xx status the promise chain dispatches an
error carrying the status code to the caller's error callback when present,
logs it to the console otherwise, and never invokes the success callback;
no exception escapes (the handler is a total function into events). -/
theorem http_error_dispatch (D : Type) (opts : LoadOptions) (status : ℕ)
    (body : Except JsError D) (h : responseOk status = false) :
    (opts.hasOnError = true →
      handleFetch opts (.response status body) = .errorCallback ⟨httpErrorMessage status⟩) ∧
    (opts.hasOnError = false →
      handleFetch opts (.response status body) = .consoleError ⟨httpErrorMessage status⟩) ∧
    (∀ d : D, handleFetch opts (.response status body) ≠ .success d) := by
  have hstep : handleFetch opts (.response status body) =
      dispatchError opts ⟨httpErrorMessage status⟩ := by
    simp [handleFetch, h]
  refine ⟨?_, ?_, ?_⟩
  · intro he
    rw [hstep]
    simp [dispatchError, he]
  · intro he
    rw [hstep]
    simp [dispatchError, he]
  · intro d
    rw [hstep]
    unfold dispatchError
    split_ifs <;> simp
/-- Witness for C9 at a simulated HTTP 404 with an error callback present. -/
theorem http_error_dispatch_witness :
    ((⟨some ['u'], true, true⟩ : LoadOptions).hasOnError = true →
      handleFetch (D := ℕ) ⟨some ['u'], true, true⟩ (.response 404 (.ok 0)) =
        .errorCallback ⟨httpErrorMessage 404⟩) ∧
    ((⟨some ['u'], true, true⟩ : LoadOptions).hasOnError = false →
      handleFetch (D := ℕ) ⟨some ['u'], true, true⟩ (.response 404 (.ok 0)) =
        .consoleError ⟨httpErrorMessage 404⟩) ∧
    (∀ d : ℕ, handleFetch (D := ℕ) ⟨some ['u'], true, true⟩ (.response 404 (.ok 0)) ≠
      .success d) :=
  http_error_dispatch ℕ ⟨some ['u'], true, true⟩ 404 (.ok 0) (by decide)

lemma ratio_bounds (x d : ℚ) (hd : 0 < d) (h1 : -d ≤ x) (h2 : x ≤ d) :
    -1.0472 ≤ 1.0472 * x / d ∧ 1.0472 * x / d ≤ 1.0472 := by
  constructor
  · rw [le_div_iff hd]
    linarith
  · rw [div_le_iff hd]
    linarith

lemma rgbToHsl_l_mem (r g b : ℚ) (hr0 : 0 ≤ r) (hr1 : r ≤ 255)
    (hg0 : 0 ≤ g) (hg1 : g ≤ 255) (hb0 : 0 ≤ b) (hb1 : b ≤ 255) :
    0 ≤ (rgbToHsl r g b).2.2 ∧ (rgbToHsl r g b).2.2 ≤ 1 := by
  have hR0 : (0:ℚ) ≤ r / 255 := by positivity
  have hR1 : r / 255 ≤ 1 := by rw [div_le_one (by norm_num : (0:ℚ) < 255)]; linarith
  have hG0 : (0:ℚ) ≤ g / 255 := by positivity
  have hG1 : g / 255 ≤ 1 := by rw [div_le_one (by norm_num : (0:ℚ) < 255)]; linarith
  have hB0 : (0:ℚ) ≤ b / 255 := by positivity
  have hB1 : b / 255 ≤ 1 := by rw [div_le_one (by norm_num : (0:ℚ) < 255)]; linarith
  simp only [rgbToHsl]
  set R := r / 255 with hRdef
  set G := g / 255 with hGdef
  set B := b / 255 with hBdef
  set MAX := max R (max G B) with hMAXdef
  set MIN := min R (min G B) with hMINdef
  have hM1 : MAX ≤ 1 := max_le hR1 (max_le hG1 hB1)
  have hm0 : 0 ≤ MIN := le_min hR0 (le_min hG0 hB0)
  have hmM : MIN ≤ MAX := le_trans (min_le_left _ _) (le_max_left _ _)
  by_cases hD : MAX - MIN = 0
  · rw [if_pos hD]
    dsimp only
    constructor <;> linarith
  · rw [if_neg hD]
    dsimp only
    constructor <;> linarith

lemma rgbToHsl_s_mem (r g b : ℚ) (hr0 : 0 ≤ r) (hr1 : r ≤ 255)
    (hg0 : 0 ≤ g) (hg1 : g ≤ 255) (hb0 : 0 ≤ b) (hb1 : b ≤ 255) :
    0 ≤ (rgbToHsl r g b).2.1 ∧ (rgbToHsl r g b).2.1 ≤ 1 := by
  have hR0 : (0:ℚ) ≤ r / 255 := by positivity
  have hR1 : r / 255 ≤ 1 := by rw [div_le_one (by norm_num : (0:ℚ) < 255)]; linarith
  have hG0 : (0:ℚ) ≤ g / 255 := by positivity
  have hG1 : g / 255 ≤ 1 := by rw [div_le_one (by norm_num : (0:ℚ) < 255)]; linarith
  have hB0 : (0:ℚ) ≤ b / 255 := by positivity
  have hB1 : b / 255 ≤ 1 := by rw [div_le_one (by norm_num : (0:ℚ) < 255)]; linarith
  simp only [rgbToHsl]
  set R := r / 255 with hRdef
  set G := g / 255 with hGdef
  set B := b / 255 with hBdef
  set MAX := max R (max G B) with hMAXdef
  set MIN := min R (min G B) with hMINdef
  have hM1 : MAX ≤ 1 := max_le hR1 (max_le hG1 hB1)
  have hm0 : 0 ≤ MIN := le_min hR0 (le_min hG0 hB0)
  have hmM : MIN ≤ MAX := le_trans (min_le_left _ _) (le_max_left _ _)
  by_cases hD : MAX - MIN = 0
  · rw [if_pos hD]
    dsimp only
    norm_num
  · rw [if_neg hD]
    dsimp only
    have hDpos : 0 < MAX - MIN := lt_of_le_of_ne (by linarith) (Ne.symm hD)
    split_ifs with hl
    · have hden : 0 < 2 - MAX - MIN := by linarith
      constructor
      · apply div_nonneg (by linarith) (by linarith)
      · rw [div_le_one hden]
        linarith
    · have hden : 0 < MAX + MIN := by
        by_contra hc
        push_neg at hc
        have h1 : MAX ≤ 0 := by linarith
        have h2 : MIN ≤ 0 := by linarith
        linarith
      constructor
      · apply div_nonneg (by linarith) (by linarith)
      · rw [div_le_one hden]
        linarith

lemma rgbToHsl_h_mem (r g b : ℚ) (hr0 : 0 ≤ r) (hr1 : r ≤ 255)
    (hg0 : 0 ≤ g) (hg1 : g ≤ 255) (hb0 : 0 ≤ b) (hb1 : b ≤ 255) :
    0 ≤ (rgbToHsl r g b).1 ∧ (rgbToHsl r g b).1 ≤ 1 := by
  have hR0 : (0:ℚ) ≤ r / 255 := by positivity
  have hR1 : r / 255 ≤ 1 := by rw [div_le_one (by norm_num : (0:ℚ) < 255)]; linarith
  have hG0 : (0:ℚ) ≤ g / 255 := by positivity
  have hG1 : g / 255 ≤ 1 := by rw [div_le_one (by norm_num : (0:ℚ) < 255)]; linarith
  have hB0 : (0:ℚ) ≤ b / 255 := by positivity
  have hB1 : b / 255 ≤ 1 := by rw [div_le_one (by norm_num : (0:ℚ) < 255)]; linarith
  simp only [rgbToHsl]
  set R := r / 255 with hRdef
  set G := g / 255 with hGdef
  set B := b / 255 with hBdef
  set MAX := max R (max G B) with hMAXdef
  set MIN := min R (min G B) with hMINdef
  have hM1 : MAX ≤ 1 := max_le hR1 (max_le hG1 hB1)
  have hm0 : 0 ≤ MIN := le_min hR0 (le_min hG0 hB0)
  have hmM : MIN ≤ MAX := le_trans (min_le_left _ _) (le_max_left _ _)
  have hGle : G ≤ MAX := le_trans (le_max_left _ _) (le_max_right _ _)
  have hBle : B ≤ MAX := le_trans (le_max_right _ _) (le_max_right _ _)
  have hRle : R ≤ MAX := le_max_left _ _
  have hRge : MIN ≤ R := min_le_left _ _
  have hGge : MIN ≤ G := le_trans (min_le_right _ _) (min_le_left _ _)
  have hBge : MIN ≤ B := le_trans (min_le_right _ _) (min_le_right _ _)
  by_cases hD : MAX - MIN = 0
  · rw [if_pos hD]
    dsimp only
    norm_num
  · rw [if_neg hD]
    dsimp only
    have hDpos : 0 < MAX - MIN := lt_of_le_of_ne (by linarith) (Ne.symm hD)
    have hden : (0:ℚ) < 6.2832 * 360 + 0 := by norm_num
    split_ifs with h1 h2 h3 h4
    · obtain ⟨hlo, hhi⟩ := ratio_bounds (G - B) (MAX - MIN) hDpos (by linarith) (by linarith)
      constructor
      · apply div_nonneg (by linarith) (by linarith)
      · rw [div_le_one hden]
        linarith
    · obtain ⟨hlo, hhi⟩ := ratio_bounds (G - B) (MAX - MIN) hDpos (by linarith) (by linarith)
      have hge : 0 ≤ 1.0472 * (G - B) / (MAX - MIN) := by
        apply div_nonneg _ (by linarith)
        have hGB : 0 ≤ G - B := by linarith
        linarith
      constructor
      · apply div_nonneg (by linarith) (by linarith)
      · rw [div_le_one hden]
        linarith
    · obtain ⟨hlo, hhi⟩ := ratio_bounds (B - R) (MAX - MIN) hDpos (by linarith) (by linarith)
      constructor
      · apply div_nonneg (by linarith) (by linarith)
      · rw [div_le_one hden]
        linarith
    · obtain ⟨hlo, hhi⟩ := ratio_bounds (R - G) (MAX - MIN) hDpos (by linarith) (by linarith)
      constructor
      · apply div_nonneg (by linarith) (by linarith)
      · rw [div_le_one hden]
        linarith
    · constructor
      · positivity
      · rw [div_le_one hden]
        norm_num

/-- C4: for integer channels in `[0, 255]`, every component of
`rgbToHsl(r, g, b)` lies in `[0, 1]`: the hue (despite the nonstandard
`6.2832 * 360` normalization constant, which in fact confines it to
`[0, 1/360]`), the saturation, and the lightness. -/
theorem rgbToHsl_components_in_unit_interval (r g b : ℕ)
    (hr : r ≤ 255) (hg : g ≤ 255) (hb : b ≤ 255) :
    0 ≤ (rgbToHsl (r : ℚ) (g : ℚ) (b : ℚ)).1 ∧ (rgbToHsl (r : ℚ) (g : ℚ) (b : ℚ)).1 ≤ 1 ∧
    0 ≤ (rgbToHsl (r : ℚ) (g : ℚ) (b : ℚ)).2.1 ∧ (rgbToHsl (r : ℚ) (g : ℚ) (b : ℚ)).2.1 ≤ 1 ∧
    0 ≤ (rgbToHsl (r : ℚ) (g : ℚ) (b : ℚ)).2.2 ∧ (rgbToHsl (r : ℚ) (g : ℚ) (b : ℚ)).2.2 ≤ 1 := by
  have hr1 : (r : ℚ) ≤ 255 := by exact_mod_cast hr
  have hg1 : (g : ℚ) ≤ 255 := by exact_mod_cast hg
  have hb1 : (b : ℚ) ≤ 255 := by exact_mod_cast hb
  have hr0 : (0:ℚ) ≤ r := by positivity
  have hg0 : (0:ℚ) ≤ g := by positivity
  have hb0 : (0:ℚ) ≤ b := by positivity
  obtain ⟨ha, hb'⟩ := rgbToHsl_h_mem r g b hr0 hr1 hg0 hg1 hb0 hb1
  obtain ⟨hc, hd⟩ := rgbToHsl_s_mem r g b hr0 hr1 hg0 hg1 hb0 hb1
  obtain ⟨he, hf⟩ := rgbToHsl_l_mem r g b hr0 hr1 hg0 hg1 hb0 hb1
  exact ⟨ha, hb', hc, hd, he, hf⟩

/-- Witness for C4 at the channels `(10, 20, 30)`. -/
theorem rgbToHsl_components_in_unit_interval_witness :
    0 ≤ (rgbToHsl ((10:ℕ) : ℚ) ((20:ℕ) : ℚ) ((30:ℕ) : ℚ)).1 ∧
    (rgbToHsl ((10:ℕ) : ℚ) ((20:ℕ) : ℚ) ((30:ℕ) : ℚ)).1 ≤ 1 ∧
    0 ≤ (rgbToHsl ((10:ℕ) : ℚ) ((20:ℕ) : ℚ) ((30:ℕ) : ℚ)).2.1 ∧
    (rgbToHsl ((10:ℕ) : ℚ) ((20:ℕ) : ℚ) ((30:ℕ) : ℚ)).2.1 ≤ 1 ∧
    0 ≤ (rgbToHsl ((10:ℕ) : ℚ) ((20:ℕ) : ℚ) ((30:ℕ) : ℚ)).2.2 ∧
    (rgbToHsl ((10:ℕ) : ℚ) ((20:ℕ) : ℚ) ((30:ℕ) : ℚ)).2.2 ≤ 1 :=
  rgbToHsl_components_in_unit_interval 10 20 30 (by decide) (by decide) (by decide)

lemma rgbToHsl_red : rgbToHsl (255:ℚ) 0 0 = (0, 1, 1/2) := by
  norm_num [rgbToHsl, max_def, min_def]

lemma rgbToHsl_cyan : rgbToHsl (0:ℚ) 255 255 = (1/720, 1, 1/2) := by
  norm_num [rgbToHsl, max_def, min_def]

lemma rgbToHsl_offcyan : rgbToHsl (0:ℚ) 253 255 = (1004003/720997200, 1, 1/2) := by
  norm_num [rgbToHsl, max_def, min_def]

lemma jsMod_red : jsMod ((0:ℚ) * 360 + 180) 360 / 360 = 1/2 := by
  norm_num [jsMod, jsTrunc]

lemma jsMod_cyan : jsMod ((1:ℚ)/720 * 360 + 180) 360 / 360 = 361/720 := by
  norm_num [jsMod, jsTrunc]

lemma hslToRgb_half : hslToRgb (1/2 : ℚ) 1 (1/2) = (0, 255, 255) := by
  norm_num [hslToRgb, hueToRgb, jsRound]

lemma hslToRgb_off : hslToRgb ((361:ℚ)/720) 1 (1/2) = (0, 253, 255) := by
  norm_num [hslToRgb, hueToRgb, jsRound]

lemma comp_red : hexToComplimentary ("#ff0000").toList = .ok (("#00ffff").toList) := by
  have h1 : hexToRgb ("#ff0000").toList = .ok (some 255, some 0, some 0) := by decide
  simp only [hexToComplimentary, h1]
  push_cast
  rw [rgbToHsl_red]
  dsimp only
  rw [jsMod_red, hslToRgb_half]
  dsimp only
  decide

lemma comp_cyan : hexToComplimentary ("#00ffff").toList = .ok (("#00fdff").toList) := by
  have h1 : hexToRgb ("#00ffff").toList = .ok (some 0, some 255, some 255) := by decide
  simp only [hexToComplimentary, h1]
  push_cast
  rw [rgbToHsl_cyan]
  dsimp only
  rw [jsMod_cyan, hslToRgb_off]
  dsimp only
  decide

/-- C3 counterexample: double rotation is not the identity on hue.  The code
confines hue to `[0, 1/360]` (a full circle in its own units is `1/360`
because of the `6.2832 * 360` normalization).  Pure red `#ff0000` has hue 0,
but applying `hexToComplimentary` twice yields `#00fdff`, whose hue exceeds
`1/800` — roughly half of the code's full hue circle away from 0, far outside
any rounding tolerance. -/
theorem hexToComplimentary_double_cex :
    hexToComplimentary ("#ff0000").toList = .ok (("#00ffff").toList) ∧
    hexToComplimentary ("#00ffff").toList = .ok (("#00fdff").toList) ∧
    (rgbToHsl (255:ℚ) 0 0).1 = 0 ∧
    1 / 800 < (rgbToHsl (0:ℚ) 253 255).1 ∧ (rgbToHsl (0:ℚ) 253 255).1 < 1 / 360 := by
  refine ⟨comp_red, comp_cyan, ?_, ?_, ?_⟩
  · rw [rgbToHsl_red]
  · rw [rgbToHsl_offcyan]
    norm_num
  · rw [rgbToHsl_offcyan]
    norm_num

/-- C3 (amended): because `rgbToHsl` divides the radian hue by
`6.2832 * 360`, the `h * 360` in the rotation step recovers only the radian
fraction, so every application of `hexToComplimentary` lands the hue near
half a circle (cyan) regardless of the input hue; in particular the double
application to pure red returns `#00fdff`, whose hue in the code's own units
is `1004003/720997200` (about half of the `1/360` full circle), not red's
hue `0`. -/
theorem hexToComplimentary_double_shift :
    (hexToComplimentary ("#ff0000").toList).bind hexToComplimentary =
      .ok (("#00fdff").toList) ∧
    (rgbToHsl (255:ℚ) 0 0).1 = 0 ∧
    (rgbToHsl (0:ℚ) 253 255).1 = 1004003/720997200 := by
  refine ⟨?_, ?_, ?_⟩
  · rw [comp_red]
    simp only [Except.bind]
    exact comp_cyan
  · rw [rgbToHsl_red]
  · rw [rgbToHsl_offcyan]
